import Mathlib

/-
  Verification development for the deepchat generation orchestrator
  (ThreadPresenter).  The definitions below are a shallow embedding of the
  TypeScript source: content blocks, the stream event processor
  (handleLLMAgentResponse), stream finalization (handleLLMAgentEnd),
  cancellation (stopMessageGeneration), context budgeting
  (selectContextMessages), the search subflow (startStreamSearch) and
  startup recovery (initializeUnfinishedMessages / handleMessageError).
-/

namespace DeepChat

/-- Status carried by every assistant content block. -/
inductive BlockStatus where
  | loading
  | optimizing
  | reading
  | success
  | error
  | cancel
deriving DecidableEq, Repr

/-- The non-terminal statuses are loading, optimizing and reading. -/
def BlockStatus.isNonTerminal : BlockStatus → Bool
  | .loading => true
  | .optimizing => true
  | .reading => true
  | _ => false

/-- Kind discriminant of an assistant content block. -/
inductive BlockKind where
  | content
  | reasoning_content
  | tool_call
  | image
  | search
  | action
  | error
deriving DecidableEq, Repr

/-- Tool-call payload carried by a tool_call block
    (id / name / params come from the event and may be absent). -/
structure ToolCallInfo where
  id : Option String
  name : Option String
  params : String
  response : Option String
deriving DecidableEq, Repr

/-- One assistant content block (AssistantMessageBlock in the source). -/
structure Block where
  kind : BlockKind
  content : String
  status : BlockStatus
  timestamp : Nat
  toolCall : Option ToolCallInfo
  extraTotal : Option Nat
  extraNeedContinue : Option Bool
  actionType : Option String
  imageData : Option String
deriving DecidableEq, Repr

/-- A plain block with no optional payloads. -/
def mkBlock (k : BlockKind) (c : String) (s : BlockStatus) (now : Nat) : Block :=
  { kind := k, content := c, status := s, timestamp := now,
    toolCall := none, extraTotal := none, extraNeedContinue := none,
    actionType := none, imageData := none }

/-- Usage totals reported by the backend. -/
structure UsageTotals where
  prompt_tokens : Nat
  completion_tokens : Nat
  total_tokens : Nat
deriving DecidableEq, Repr

/-- A parsed deepchat-webpage resource found in a raw tool response. -/
structure SearchResultPayload where
  title : String
  url : String
  body : String
  icon : String
deriving DecidableEq, Repr

/-- Phase carried by the tool_call field of an event
    (the source strings are start / end / error). -/
inductive ToolPhase where
  | start
  | finish
  | failed
deriving DecidableEq, Repr

/-- Value of tool_call_response: a string, a JSON-serializable object
    (represented by its serialization), or absent. -/
inductive RespVal where
  | str (s : String)
  | obj (json : String)
  | absent
deriving DecidableEq, Repr

/-- The LLMAgentEventData record consumed by handleLLMAgentResponse.
    rawSearchResults is the list of webpage resources parsed out of
    tool_call_response_raw. -/
structure AgentEventData where
  content : Option String
  reasoning_content : Option String
  tool_call : Option ToolPhase
  tool_call_id : Option String
  tool_call_name : Option String
  tool_call_params : Option String
  tool_call_response : RespVal
  maximum_tool_calls_reached : Bool
  totalUsage : Option UsageTotals
  image_data : Option String
  rawSearchResults : List SearchResultPayload
deriving DecidableEq, Repr

/-- JS truthiness of an optional string (undefined and the empty
    string are falsy). -/
def truthy : Option String → Bool
  | some s => !(s == "")
  | none => false

/-- The assistant message being generated (only its block list matters
    to the orchestrator logic). -/
structure AssistantMessage where
  id : String
  content : List Block
deriving DecidableEq, Repr

/-- GeneratingMessageState from the source. -/
structure GeneratingMessageState where
  message : AssistantMessage
  conversationId : String
  startTime : Nat
  firstTokenTime : Option Nat
  promptTokens : Nat
  reasoningStartTime : Option Nat
  reasoningEndTime : Option Nat
  lastReasoningTime : Option Nat
  isSearching : Bool
  isCancelled : Bool
  totalUsage : Option UsageTotals
deriving DecidableEq, Repr

/-- Replace the element at index i by f of it; out-of-range indices
    leave the list unchanged (mutation through a captured reference). -/
def modifyAt (l : List Block) (i : Nat) (f : Block → Block) : List Block :=
  match l[i]? with
  | some b => l.set i (f b)
  | none => l

/-- Set the status of the block at an optional index to success
    (the `if (lastBlock) lastBlock.status = 'success'` idiom). -/
def closeAtOpt (l : List Block) (lp : Option Nat) : List Block :=
  match lp with
  | some i => modifyAt l i (fun b => { b with status := .success })
  | none => l

/-- Index of the last element, if any. -/
def lastIdx (l : List Block) : Option Nat :=
  if l.isEmpty then none else some (l.length - 1)

/-- The action block pushed when the tool-call limit is reached. -/
def maxActionBlock (now : Nat) (ev : AgentEventData) : Block :=
  { kind := .action, content := "common.error.maximumToolCallsReached",
    status := .success, timestamp := now,
    toolCall := some { id := ev.tool_call_id, name := ev.tool_call_name,
                       params := ev.tool_call_params.getD "", response := none },
    extraTotal := none, extraNeedContinue := some true,
    actionType := some "maximum_tool_calls_reached", imageData := none }

/-- The tool_call block opened by a tool-call-start event. -/
def toolStartBlock (now : Nat) (ev : AgentEventData) : Block :=
  { kind := .tool_call, content := "", status := .loading, timestamp := now,
    toolCall := some { id := ev.tool_call_id, name := ev.tool_call_name,
                       params := ev.tool_call_params.getD "", response := none },
    extraTotal := none, extraNeedContinue := none,
    actionType := none, imageData := none }

/-- The image block appended by an image-data event. -/
def imageBlock (now : Nat) (ev : AgentEventData) : Block :=
  { kind := .image, content := "image", status := .success, timestamp := now,
    toolCall := none, extraTotal := none, extraNeedContinue := none,
    actionType := none, imageData := ev.image_data }

/-- A fresh search block carrying a result count. -/
def searchBlockOf (now total : Nat) (st : BlockStatus) : Block :=
  { kind := .search, content := "", status := st, timestamp := now,
    toolCall := none, extraTotal := some total, extraNeedContinue := none,
    actionType := none, imageData := none }

/-- Merge webpage search results from a raw tool response into the block
    list: update a leading search block in place, or insert a new
    success search block at the front. -/
def applyEmbeddedSearch (now : Nat) (results : List SearchResultPayload)
    (l : List Block) : List Block :=
  if results.isEmpty then l
  else
    match l with
    | b :: rest =>
      if b.kind == .search then
        { b with
          status := .success, timestamp := now,
          extraTotal := some (b.extraTotal.getD 0 + results.length) } :: rest
      else searchBlockOf now results.length .success :: b :: rest
    | [] => [searchBlockOf now results.length .success]

/-- Predicate used to locate the tool_call block a tool-call-end or
    tool-call-error event refers to: first loading tool_call block
    matching by id (when the event carries a truthy id) or by name. -/
def toolMatch (ev : AgentEventData) (b : Block) : Bool :=
  b.kind == .tool_call &&
    ((truthy ev.tool_call_id && (b.toolCall.bind ToolCallInfo.id) == ev.tool_call_id) ||
      (b.toolCall.bind ToolCallInfo.name) == ev.tool_call_name) &&
    b.status == .loading

/-- Serialized response attached on tool-call-end / tool-call-error
    (on error a falsy string is replaced by a fixed marker). -/
def respString (phase : ToolPhase) (r : RespVal) : Option String :=
  match r with
  | .str s => if phase == .failed && s == "" then some "执行失败" else some s
  | .obj j => some j
  | .absent => none

/-- Update applied to the located tool_call block. -/
def applyToolResult (phase : ToolPhase) (ev : AgentEventData) (b : Block) : Block :=
  { b with
    status := if phase == .failed then .error else .success,
    toolCall := b.toolCall.map (fun tc => { tc with response := respString phase ev.tool_call_response }) }

/-- Index of the first element satisfying p, if any
    (the JS Array.prototype.find idiom, positionally). -/
def findFirstIdx (p : Block → Bool) : List Block → Option Nat
  | [] => none
  | b :: rest => if p b then some 0 else (findFirstIdx p rest).map (· + 1)

/-- tool-call-end / tool-call-error handling: update the first matching
    loading tool_call block; no match is a no-op. -/
def updateMatchingTool (phase : ToolPhase) (ev : AgentEventData)
    (l : List Block) : List Block :=
  match findFirstIdx (toolMatch ev) l with
  | some i => modifyAt l i (applyToolResult phase ev)
  | none => l

/-- content-delta / reasoning-delta handling: append to the captured
    last block when it has the same kind, else close it and open a new
    loading block of kind k. -/
def deltaStep (k : BlockKind) (now : Nat) (s : String) (lp : Option Nat)
    (l : List Block) : List Block :=
  match lp with
  | some i =>
    match l[i]? with
    | some b =>
      if b.kind == k then l.set i { b with content := b.content ++ s }
      else (l.set i { b with status := .success }) ++ [mkBlock k s .loading now]
    | none => l ++ [mkBlock k s .loading now]
  | none => l ++ [mkBlock k s .loading now]

/-- Whether the head of the list is a search block. -/
def headIsSearch : List Block → Bool
  | b :: _ => b.kind == .search
  | [] => false

/-- Content-list transformation performed by handleLLMAgentResponse.
    The captured last-block reference of the source is tracked
    positionally: after the embedded-search unshift it moves one slot
    to the right. -/
def respContent (now : Nat) (ev : AgentEventData) (c : List Block) : List Block :=
  if ev.maximum_tool_calls_reached then
    closeAtOpt c (lastIdx c) ++ [maxActionBlock now ev]
  else
    let isEnd := ev.tool_call == some ToolPhase.finish
    let c1 := if isEnd then applyEmbeddedSearch now ev.rawSearchResults c else c
    let shifted := isEnd && !ev.rawSearchResults.isEmpty && !headIsSearch c
    let lp := if shifted then (lastIdx c).map (· + 1) else lastIdx c
    let c2 :=
      match ev.tool_call with
      | some .start => closeAtOpt c1 lp ++ [toolStartBlock now ev]
      | some .finish => updateMatchingTool .finish ev c1
      | some .failed => updateMatchingTool .failed ev c1
      | none =>
        if ev.image_data.isSome then closeAtOpt c1 lp ++ [imageBlock now ev]
        else if truthy ev.content then
          deltaStep .content now (ev.content.getD "") lp c1
        else c1
    if truthy ev.reasoning_content then
      deltaStep .reasoning_content now (ev.reasoning_content.getD "") lp c2
    else c2

/-- First-token bookkeeping: record the arrival time of the first
    content or reasoning delta. -/
def bkFirstToken (now : Nat) (ev : AgentEventData)
    (st : GeneratingMessageState) : GeneratingMessageState :=
  if st.firstTokenTime.isNone && (truthy ev.content || truthy ev.reasoning_content)
  then { st with firstTokenTime := some now } else st

/-- Usage bookkeeping: a usage-totals payload overwrites the running
    totals and the prompt-token count. -/
def bkUsage (ev : AgentEventData)
    (st : GeneratingMessageState) : GeneratingMessageState :=
  match ev.totalUsage with
  | some u => { st with totalUsage := some u, promptTokens := u.prompt_tokens }
  | none => st

/-- Reasoning-time bookkeeping (skipped when the tool-call limit was
    reached, because the handler returns early in that case). -/
def bkReasoning (now : Nat) (ev : AgentEventData)
    (st : GeneratingMessageState) : GeneratingMessageState :=
  if ev.maximum_tool_calls_reached then st
  else if truthy ev.reasoning_content then
    if st.reasoningStartTime.isNone then
      { st with reasoningStartTime := some now, lastReasoningTime := some now }
    else { st with lastReasoningTime := some now }
  else st

/-- Bookkeeping part of handleLLMAgentResponse (first-token time, usage
    totals, reasoning timestamps). -/
def respBookkeeping (now : Nat) (ev : AgentEventData)
    (st : GeneratingMessageState) : GeneratingMessageState :=
  bkReasoning now ev (bkUsage ev (bkFirstToken now ev st))

/-- handleLLMAgentResponse as a pure state transform. -/
def handleLLMAgentResponse (now : Nat) (st : GeneratingMessageState)
    (ev : AgentEventData) : GeneratingMessageState :=
  let st' := respBookkeeping now ev st
  { st' with message := { st'.message with content := respContent now ev st'.message.content } }

/-- The discrete stream-event kinds of the event contract. -/
inductive StreamEvent where
  | contentDelta (s : String)
  | reasoningDelta (s : String)
  | toolCallStart (id name params : Option String)
  | toolCallEnd (id name : Option String) (resp : RespVal)
      (searchResults : List SearchResultPayload)
  | toolCallError (id name : Option String) (resp : RespVal)
  | imageData (data : String)
  | usageTotals (u : UsageTotals)
  | maxToolCalls (id name params : Option String)
deriving DecidableEq, Repr

/-- An LLMAgentEventData record with no field set. -/
def emptyEventData : AgentEventData :=
  { content := none, reasoning_content := none, tool_call := none,
    tool_call_id := none, tool_call_name := none, tool_call_params := none,
    tool_call_response := .absent, maximum_tool_calls_reached := false,
    totalUsage := none, image_data := none, rawSearchResults := [] }

/-- Embed a discrete stream event as the record the processor consumes. -/
def StreamEvent.toEventData : StreamEvent → AgentEventData
  | .contentDelta s => { emptyEventData with content := some s }
  | .reasoningDelta s => { emptyEventData with reasoning_content := some s }
  | .toolCallStart i n p =>
    { emptyEventData with
      tool_call := some .start, tool_call_id := i,
      tool_call_name := n, tool_call_params := p }
  | .toolCallEnd i n r srs =>
    { emptyEventData with
      tool_call := some .finish, tool_call_id := i,
      tool_call_name := n, tool_call_response := r, rawSearchResults := srs }
  | .toolCallError i n r =>
    { emptyEventData with
      tool_call := some .failed, tool_call_id := i,
      tool_call_name := n, tool_call_response := r }
  | .imageData d => { emptyEventData with image_data := some d }
  | .usageTotals u => { emptyEventData with totalUsage := some u }
  | .maxToolCalls i n p =>
    { emptyEventData with
      maximum_tool_calls_reached := true, tool_call_id := i,
      tool_call_name := n, tool_call_params := p }

/-- Process a timestamped sequence of stream events. -/
def processEvents (evs : List (Nat × StreamEvent))
    (st : GeneratingMessageState) : GeneratingMessageState :=
  evs.foldl (fun s p => handleLLMAgentResponse p.1 s p.2.toEventData) st

/-- Persisted message status. -/
inductive MsgStatus where
  | pending
  | sent
  | error
deriving DecidableEq, Repr

/-- Metadata persisted at end of stream (the fields the claims are
    about; tokensPerSecond is a float and is omitted). -/
structure EndMetadata where
  totalTokens : Nat
  inputTokens : Nat
  outputTokens : Nat
  generationTime : Int
deriving DecidableEq, Repr

/-- Result of handleLLMAgentEnd: final persisted content, metadata and
    message status. -/
structure EndResult where
  content : List Block
  metadata : EndMetadata
  status : MsgStatus
deriving DecidableEq, Repr

/-- Per-block completion-token estimate summed when the backend reported
    no usage totals: content, reasoning_content and tool_call blocks. -/
def isEstimatedKind (k : BlockKind) : Bool :=
  k == .content || k == .reasoning_content || k == .tool_call

/-- Sum of approximate token sizes over the estimated block kinds. -/
def blockTokenSum (est : String → Nat) (l : List Block) : Nat :=
  ((l.filter (fun b => isEstimatedKind b.kind)).map (fun b => est b.content)).sum

/-- Whether the content has any content / reasoning_content / tool_call /
    image block. -/
def hasContentBlock (l : List Block) : Bool :=
  l.any (fun b =>
    b.kind == .content || b.kind == .reasoning_content ||
      b.kind == .tool_call || b.kind == .image)

/-- The error block appended when the stream produced nothing. -/
def noModelResponseBlock (now : Nat) : Block :=
  mkBlock .error "common.error.noModelResponse" .error now

/-- handleLLMAgentEnd: close every block to success, compute completion
    tokens (backend usage totals take precedence over the local
    estimate), append a no-model-response error block when nothing was
    produced and the user did not stop, and mark the message sent. -/
def handleLLMAgentEnd (est : String → Nat) (now : Nat) (userStop : Bool)
    (st : GeneratingMessageState) : EndResult :=
  let closed := st.message.content.map (fun b => { b with status := BlockStatus.success })
  let completionTokens :=
    match st.totalUsage with
    | some u => u.completion_tokens
    | none => blockTokenSum est st.message.content
  let content2 :=
    if !hasContentBlock closed && !userStop then closed ++ [noModelResponseBlock now]
    else closed
  { content := content2,
    metadata :=
      { totalTokens := st.promptTokens + completionTokens,
        inputTokens := st.promptTokens,
        outputTokens := completionTokens,
        generationTime := (now : Int) - (st.firstTokenTime.getD st.startTime : Int) },
    status := .sent }

/-- The cancel block appended by stopMessageGeneration. -/
def cancelBlock (now : Nat) : Block :=
  mkBlock .error "common.error.userCanceledGeneration" .cancel now

/-- Close every non-terminal (loading / reading / optimizing) block to
    success. -/
def closeNonTerminals (l : List Block) : List Block :=
  l.map (fun b => if b.status.isNonTerminal then { b with status := BlockStatus.success } else b)

/-- Observable side effects of stopMessageGeneration, in program order. -/
inductive StopEffect where
  | stopSearch
  | updateStatus (s : MsgStatus)
  | editMessage (content : List Block)
  | stopStream
  | removeState
deriving DecidableEq, Repr

/-- Orchestrator-level view of one assistant message: the active
    generation state (if any), what the store holds for it, and whether
    the backend stream was asked to stop. -/
structure MsgSlot where
  active : Option GeneratingMessageState
  persistedStatus : MsgStatus
  persistedContent : List Block
  streamStopRequested : Bool
deriving DecidableEq, Repr

/-- stopMessageGeneration: set the cancellation flag, close non-terminal
    blocks to success, append the cancel block, persist status error and
    the content, ask the backend stream to stop, and remove the state
    from the active set.  Returns the new slot and the ordered effect
    trace. -/
def stopMessageGeneration (now : Nat) (s : MsgSlot) : MsgSlot × List StopEffect :=
  match s.active with
  | none => (s, [])
  | some st =>
    let finalContent := closeNonTerminals st.message.content ++ [cancelBlock now]
    ({ active := none, persistedStatus := .error, persistedContent := finalContent,
       streamStopRequested := true },
     (if st.isSearching then [StopEffect.stopSearch] else []) ++
       [StopEffect.updateStatus .error, StopEffect.editMessage finalContent,
        StopEffect.stopStream, StopEffect.removeState])

/-- Slot-level stream-response handling: without an active generation
    state the event does not touch the message. -/
def slotHandleResponse (now : Nat) (ev : AgentEventData) (s : MsgSlot) : MsgSlot :=
  match s.active with
  | some st =>
    let st' := handleLLMAgentResponse now st ev
    { s with active := some st', persistedContent := st'.message.content }
  | none => s

/-- Slot-level end-of-stream handling: without an active generation
    state the event does not touch the message. -/
def slotHandleEnd (est : String → Nat) (now : Nat) (userStop : Bool)
    (s : MsgSlot) : MsgSlot :=
  match s.active with
  | some st =>
    let r := handleLLMAgentEnd est now userStop st
    { active := none, persistedStatus := r.status, persistedContent := r.content,
      streamStopRequested := s.streamStopRequested }
  | none => s

/-- Message role. -/
inductive MsgRole where
  | user
  | assistant
deriving DecidableEq, Repr

/-- A history message as seen by the context selector: its id, role and
    the strings the token estimator is fed (user text plus file-context
    string, or the serialized assistant block content). -/
structure CtxMessage where
  id : String
  role : MsgRole
  text : String
  fileContext : String
  serializedBlocks : String
deriving DecidableEq, Repr

/-- Token estimate of one history message: user messages estimate
    text + file context, assistant messages their serialized content. -/
def msgTokens (est : String → Nat) (m : CtxMessage) : Nat :=
  match m.role with
  | .user => est (m.text ++ m.fileContext)
  | .assistant => est m.serializedBlocks

/-- Greedy walk (newest first) keeping messages while the running token
    sum stays within the budget; stops at the first message that does
    not fit.  Returns the kept messages newest first. -/
def takeBudget (est : String → Nat) (remaining : Int) :
    List CtxMessage → Int → List CtxMessage
  | [], _ => []
  | m :: rest, cur =>
    if cur + (msgTokens est m : Int) <= remaining then
      m :: takeBudget est remaining rest (cur + (msgTokens est m : Int))
    else []

/-- selectContextMessages: with no remaining budget nothing is selected;
    otherwise walk the history newest-to-oldest (excluding the
    triggering user message), keep the prefix that fits, and restore
    chronological order. -/
def selectContextMessages (est : String → Nat) (contextMessages : List CtxMessage)
    (userMessage : CtxMessage) (remainingContextLength : Int) : List CtxMessage :=
  if remainingContextLength <= 0 then []
  else
    (takeBudget est remainingContextLength
      ((contextMessages.filter (fun m => !(m.id == userMessage.id))).reverse) 0).reverse

/-- One run of the search subflow: whether an exception escaped it, what
    it returned, and the value of its search block at each store flush. -/
structure SubflowRun where
  raised : Option String
  returned : Option (List SearchResultPayload)
  blockTrace : List Block
deriving DecidableEq, Repr

/-- The cancellation-flag checks of the search subflow, numbered in
    program order: 0 before the search block is inserted, 1 after
    history gathering, 2 before the optimizing flush, 3 after the
    rewrite, 4 after the engine call, 5..4+N before persisting each of
    the N results, 5+N before the success flush.  cancelPoint is the
    first check at which the flag is observed (the flag is never
    cleared during the subflow). -/
def cancelledAt (cancelPoint : Option Nat) (k : Nat) : Bool :=
  match cancelPoint with
  | some c => c ≤ k
  | none => false

/-- The user-cancellation marker thrown by throwIfCancelled. -/
def userCancelMsg : String := "common.error.userCanceledGeneration"

/-- startStreamSearch: insert a loading search block, advance it through
    optimizing, reading and loading(total = N) to success, flushing after
    every status change; any failure or cancellation observed inside the
    try block marks the block error and returns an empty result instead
    of raising; a cancellation observed at check 0 (before the block is
    inserted) propagates as an exception. -/
def startStreamSearch (now : Nat) (cancelPoint : Option Nat)
    (searchFail : Option String) (results : List SearchResultPayload) : SubflowRun :=
  if cancelledAt cancelPoint 0 then
    { raised := some userCancelMsg, returned := none, blockTrace := [] }
  else
    let b0 := searchBlockOf now 0 .loading
    if cancelledAt cancelPoint 1 || cancelledAt cancelPoint 2 then
      { raised := none, returned := some [],
        blockTrace := [b0, { b0 with status := .error, content := userCancelMsg }] }
    else
      let b1 := { b0 with status := BlockStatus.optimizing }
      if cancelledAt cancelPoint 3 then
        { raised := none, returned := some [],
          blockTrace := [b0, b1, { b0 with status := .error, content := userCancelMsg }] }
      else
        let b2 := { b0 with status := BlockStatus.reading }
        match searchFail with
        | some e =>
          { raised := none, returned := some [],
            blockTrace := [b0, b1, b2, { b0 with status := .error, content := e }] }
        | none =>
          if cancelledAt cancelPoint 4 then
            { raised := none, returned := some [],
              blockTrace := [b0, b1, b2, { b0 with status := .error, content := userCancelMsg }] }
          else
            let b3 := { b0 with status := BlockStatus.loading, extraTotal := some results.length }
            if (List.range (results.length + 1)).any
                (fun k => cancelledAt cancelPoint (5 + k)) then
              { raised := none, returned := some [],
                blockTrace := [b0, b1, b2, b3,
                  { b3 with status := .error, content := userCancelMsg }] }
            else
              { raised := none, returned := some results,
                blockTrace := [b0, b1, b2, b3, { b3 with status := BlockStatus.success }] }

/-- A message as stored (role, status and parsed block content; a
    content string that fails to parse is represented by none). -/
structure StoredMessage where
  id : String
  role : MsgRole
  status : MsgStatus
  blocks : Option (List Block)
deriving DecidableEq, Repr

/-- handleMessageError: loading blocks become error, an error block with
    the given marker is appended, and the message status becomes error
    (unparseable content is treated as empty). -/
def handleMessageError (now : Nat) (errorMessage : String)
    (m : StoredMessage) : StoredMessage :=
  let content := m.blocks.getD []
  let content :=
    content.map (fun b => if b.status == .loading then { b with status := BlockStatus.error } else b)
  { m with status := .error, blocks := some (content ++ [mkBlock .error errorMessage .error now]) }

/-- initializeUnfinishedMessages: over the first 1000 conversations and
    the first 1000 messages of each, apply handleMessageError with the
    session-interrupted marker to every pending assistant message. -/
def initializeUnfinishedMessages (now : Nat)
    (store : List (List StoredMessage)) : List (List StoredMessage) :=
  store.mapIdx (fun ci msgs =>
    if ci < 1000 then
      msgs.mapIdx (fun mi m =>
        if mi < 1000 && m.role == .assistant && m.status == .pending then
          handleMessageError now "common.error.sessionInterrupted" m
        else m)
    else msgs)

/-! Invariant infrastructure: every block except possibly the last one
    is in a terminal status. -/

/-- All blocks of the list are terminal. -/
def allTerminal (l : List Block) : Prop :=
  ∀ b ∈ l, b.status.isNonTerminal = false

/-- Every block except possibly the last one is terminal. -/
def ntLast (l : List Block) : Prop :=
  ∀ i b, i + 1 < l.length → l[i]? = some b → b.status.isNonTerminal = false

/-- Number of blocks in a non-terminal status. -/
def countNonTerminal (l : List Block) : Nat :=
  (l.filter (fun b => b.status.isNonTerminal)).length

lemma ntLast_nil : ntLast [] := by
  intro i b h
  simp at h

lemma ntLast_singleton (b : Block) : ntLast [b] := by
  intro i x h
  simp at h

lemma allTerminal_ntLast {l : List Block} (h : allTerminal l) : ntLast l := by
  intro i b _ hb
  exact h b (List.getElem?_mem hb)

lemma ntLast_of_cons {x : Block} {l : List Block} (h : ntLast (x :: l)) : ntLast l := by
  intro i b hi hb
  have := h (i + 1) b (by simpa using Nat.succ_lt_succ hi) (by simpa using hb)
  exact this

lemma countNonTerminal_le_one {l : List Block} (h : ntLast l) :
    countNonTerminal l ≤ 1 := by
  induction l with
  | nil => simp [countNonTerminal]
  | cons a t ih =>
    cases t with
    | nil =>
      unfold countNonTerminal
      by_cases ha : a.status.isNonTerminal <;> simp [ha]
    | cons b t2 =>
      have ha : a.status.isNonTerminal = false := by
        have := h 0 a (by simp [Nat.succ_lt_succ]) (by simp)
        exact this
      have h2 : ntLast (b :: t2) := ntLast_of_cons h
      have heq : countNonTerminal (a :: b :: t2) = countNonTerminal (b :: t2) := by
        unfold countNonTerminal
        simp [List.filter_cons, ha]
      rw [heq]
      exact ih h2

lemma ntLast_set_last {l : List Block} (h : ntLast l) (x : Block) :
    ntLast (l.set (l.length - 1) x) := by
  intro i b hi hb
  rw [List.length_set] at hi
  have hne : l.length - 1 ≠ i := by omega
  rw [List.getElem?_set_ne hne] at hb
  exact h i b hi hb

lemma ntLast_set_terminal {l : List Block} {x : Block} (h : ntLast l)
    (hx : x.status.isNonTerminal = false) (j : Nat) : ntLast (l.set j x) := by
  intro i b hi hb
  rw [List.length_set] at hi
  by_cases hij : j = i
  · subst hij
    rw [List.getElem?_set_self'] at hb
    rcases hy : l[j]? with _ | y
    · rw [hy] at hb
      simp at hb
    · rw [hy] at hb
      simp at hb
      subst hb
      exact hx
  · rw [List.getElem?_set_ne hij] at hb
    exact h i b hi hb

lemma ntLast_append_singleton {l : List Block} (h : allTerminal l) (x : Block) :
    ntLast (l ++ [x]) := by
  intro i b hi hb
  rw [List.length_append, List.length_singleton] at hi
  have hlt : i < l.length := by omega
  rw [List.getElem?_append_left hlt] at hb
  exact h b (List.getElem?_mem hb)

lemma ntLast_cons_terminal {l : List Block} {x : Block} (h : ntLast l)
    (hx : x.status.isNonTerminal = false) : ntLast (x :: l) := by
  intro i b hi hb
  cases i with
  | zero =>
    simp at hb
    subst hb
    exact hx
  | succ j =>
    simp only [List.length_cons] at hi
    have : l[j]? = some b := by simpa using hb
    exact h j b (by omega) this

lemma allTerminal_set_of_ntLast {l : List Block} (h : ntLast l) {x : Block}
    (hx : x.status.isNonTerminal = false) :
    allTerminal (l.set (l.length - 1) x) := by
  intro b hb
  rw [List.mem_iff_getElem?] at hb
  obtain ⟨j, hj⟩ := hb
  by_cases hje : l.length - 1 = j
  · subst hje
    rw [List.getElem?_set_self'] at hj
    rcases hy : l[l.length - 1]? with _ | y
    · rw [hy] at hj
      simp at hj
    · rw [hy] at hj
      simp at hj
      subst hj
      exact hx
  · rw [List.getElem?_set_ne hje] at hj
    have hjlen : j < l.length := by
      by_contra hge
      rw [List.getElem?_eq_none (by omega)] at hj
      exact Option.noConfusion hj
    have hne : j + 1 < l.length := by
      rcases Nat.lt_or_ge (j + 1) l.length with hlt | hge
      · exact hlt
      · exact absurd (by omega : l.length - 1 = j) hje
    exact h j b hne hj

lemma allTerminal_closeAtOpt_lastIdx {l : List Block} (h : ntLast l) :
    allTerminal (closeAtOpt l (lastIdx l)) := by
  cases l with
  | nil =>
    intro b hb
    simp [closeAtOpt, lastIdx] at hb
  | cons a t =>
    have hne : ¬(a :: t).isEmpty := by simp
    unfold closeAtOpt lastIdx
    simp only [hne, if_false, Bool.false_eq_true]
    unfold modifyAt
    cases hy : (a :: t)[(a :: t).length - 1]? with
    | none =>
      exfalso
      have hlt : (a :: t).length - 1 < (a :: t).length := by simp
      rw [List.getElem?_eq_getElem hlt] at hy
      exact Option.noConfusion hy
    | some y => exact allTerminal_set_of_ntLast h rfl

lemma ntLast_closeAtOpt_lastIdx_append {l : List Block} (h : ntLast l) (x : Block) :
    ntLast (closeAtOpt l (lastIdx l) ++ [x]) :=
  ntLast_append_singleton (allTerminal_closeAtOpt_lastIdx h) x

lemma ntLast_applyEmbeddedSearch {l : List Block} (h : ntLast l)
    (now : Nat) (rs : List SearchResultPayload) :
    ntLast (applyEmbeddedSearch now rs l) := by
  unfold applyEmbeddedSearch
  by_cases hrs : rs.isEmpty
  · simpa [hrs]
  · simp only [hrs, if_false, Bool.false_eq_true]
    cases l with
    | nil => exact ntLast_singleton _
    | cons b rest =>
      by_cases hb : b.kind == BlockKind.search
      · simp only [hb, if_true]
        intro i c hi hc
        cases i with
        | zero =>
          simp at hc
          rw [← hc]
          rfl
        | succ j =>
          simp only [List.length_cons] at hi
          have : rest[j]? = some c := by simpa using hc
          exact h (j + 1) c (by simpa using hi) (by simpa using this)
      · simp only [hb, Bool.false_eq_true, if_false]
        exact ntLast_cons_terminal h rfl

lemma ntLast_deltaStep {l : List Block} (h : ntLast l)
    (k : BlockKind) (now : Nat) (s : String) :
    ntLast (deltaStep k now s (lastIdx l) l) := by
  cases l with
  | nil =>
    unfold deltaStep lastIdx
    simp only [List.isEmpty_nil, if_true]
    exact ntLast_singleton _
  | cons a t =>
    have hne : ¬(a :: t).isEmpty := by simp
    unfold deltaStep lastIdx
    simp only [hne, if_false, Bool.false_eq_true]
    cases hy : (a :: t)[(a :: t).length - 1]? with
    | none =>
      exfalso
      have hlt : (a :: t).length - 1 < (a :: t).length := by simp
      rw [List.getElem?_eq_getElem hlt] at hy
      exact Option.noConfusion hy
    | some y =>
      by_cases hk : y.kind == k
      · simp only [hk, if_true]
        exact ntLast_set_last h _
      · simp only [hk, Bool.false_eq_true, if_false]
        refine ntLast_append_singleton (allTerminal_set_of_ntLast h ?_) _
        rfl

lemma ntLast_updateMatchingTool {l : List Block} (h : ntLast l)
    (phase : ToolPhase) (ev : AgentEventData) :
    ntLast (updateMatchingTool phase ev l) := by
  unfold updateMatchingTool
  cases hidx : findFirstIdx (toolMatch ev) l with
  | none =>
    simp only [hidx]
    exact h
  | some i =>
    simp only [hidx]
    unfold modifyAt
    cases hy : l[i]? with
    | none =>
      simp only [hy]
      exact h
    | some y =>
      simp only [hy]
      apply ntLast_set_terminal h
      unfold applyToolResult
      cases phase <;> rfl

/-! Per-event reduction of the processor. -/

lemma respBookkeeping_message (now : Nat) (ev : AgentEventData)
    (st : GeneratingMessageState) :
    (respBookkeeping now ev st).message = st.message := by
  have h1 : ∀ t, (bkFirstToken now ev t).message = t.message := by
    intro t
    unfold bkFirstToken
    split <;> rfl
  have h2 : ∀ t, (bkUsage ev t).message = t.message := by
    intro t
    unfold bkUsage
    cases hu : ev.totalUsage <;> simp only [hu]
  have h3 : ∀ t, (bkReasoning now ev t).message = t.message := by
    intro t
    unfold bkReasoning
    repeat' split
    all_goals rfl
  unfold respBookkeeping
  rw [h3, h2, h1]

lemma handleLLMAgentResponse_content (now : Nat) (st : GeneratingMessageState)
    (ev : AgentEventData) :
    (handleLLMAgentResponse now st ev).message.content =
      respContent now ev st.message.content := by
  unfold handleLLMAgentResponse
  dsimp only []
  rw [respBookkeeping_message]

lemma respContent_contentDelta (now : Nat) (s : String) (c : List Block) :
    respContent now (StreamEvent.contentDelta s).toEventData c =
      if s = "" then c else deltaStep .content now s (lastIdx c) c := by
  by_cases hs : s = ""
  · subst hs
    simp [respContent, StreamEvent.toEventData, emptyEventData, truthy]
  · simp [respContent, StreamEvent.toEventData, emptyEventData, truthy, hs]

lemma respContent_reasoningDelta (now : Nat) (s : String) (c : List Block) :
    respContent now (StreamEvent.reasoningDelta s).toEventData c =
      if s = "" then c else deltaStep .reasoning_content now s (lastIdx c) c := by
  by_cases hs : s = ""
  · subst hs
    simp [respContent, StreamEvent.toEventData, emptyEventData, truthy]
  · simp [respContent, StreamEvent.toEventData, emptyEventData, truthy, hs]

lemma respContent_toolCallStart (now : Nat) (i n p : Option String) (c : List Block) :
    respContent now (StreamEvent.toolCallStart i n p).toEventData c =
      closeAtOpt c (lastIdx c) ++
        [toolStartBlock now (StreamEvent.toolCallStart i n p).toEventData] := by
  simp [respContent, StreamEvent.toEventData, emptyEventData, truthy]

lemma respContent_toolCallEnd (now : Nat) (i n : Option String) (r : RespVal)
    (srs : List SearchResultPayload) (c : List Block) :
    respContent now (StreamEvent.toolCallEnd i n r srs).toEventData c =
      updateMatchingTool .finish (StreamEvent.toolCallEnd i n r srs).toEventData
        (applyEmbeddedSearch now srs c) := by
  simp [respContent, StreamEvent.toEventData, emptyEventData, truthy]

lemma respContent_toolCallError (now : Nat) (i n : Option String) (r : RespVal)
    (c : List Block) :
    respContent now (StreamEvent.toolCallError i n r).toEventData c =
      updateMatchingTool .failed (StreamEvent.toolCallError i n r).toEventData c := by
  simp [respContent, StreamEvent.toEventData, emptyEventData, truthy]

lemma respContent_imageData (now : Nat) (d : String) (c : List Block) :
    respContent now (StreamEvent.imageData d).toEventData c =
      closeAtOpt c (lastIdx c) ++
        [imageBlock now (StreamEvent.imageData d).toEventData] := by
  simp [respContent, StreamEvent.toEventData, emptyEventData, truthy]

lemma respContent_usageTotals (now : Nat) (u : UsageTotals) (c : List Block) :
    respContent now (StreamEvent.usageTotals u).toEventData c = c := by
  simp [respContent, StreamEvent.toEventData, emptyEventData, truthy]

lemma respContent_maxToolCalls (now : Nat) (i n p : Option String) (c : List Block) :
    respContent now (StreamEvent.maxToolCalls i n p).toEventData c =
      closeAtOpt c (lastIdx c) ++
        [maxActionBlock now (StreamEvent.maxToolCalls i n p).toEventData] := by
  simp [respContent, StreamEvent.toEventData, emptyEventData, truthy]

/-- One stream event preserves the every-block-but-the-last-is-terminal
    invariant. -/
lemma ntLast_respContent (e : StreamEvent) (now : Nat) {c : List Block}
    (h : ntLast c) : ntLast (respContent now e.toEventData c) := by
  cases e with
  | contentDelta s =>
    rw [respContent_contentDelta]
    by_cases hs : s = ""
    · simpa [hs] using h
    · simpa [hs] using ntLast_deltaStep h .content now s
  | reasoningDelta s =>
    rw [respContent_reasoningDelta]
    by_cases hs : s = ""
    · simpa [hs] using h
    · simpa [hs] using ntLast_deltaStep h .reasoning_content now s
  | toolCallStart i n p =>
    rw [respContent_toolCallStart]
    exact ntLast_closeAtOpt_lastIdx_append h _
  | toolCallEnd i n r srs =>
    rw [respContent_toolCallEnd]
    exact ntLast_updateMatchingTool (ntLast_applyEmbeddedSearch h now srs) _ _
  | toolCallError i n r =>
    rw [respContent_toolCallError]
    exact ntLast_updateMatchingTool h _ _
  | imageData d =>
    rw [respContent_imageData]
    exact ntLast_closeAtOpt_lastIdx_append h _
  | usageTotals u =>
    rw [respContent_usageTotals]
    exact h
  | maxToolCalls i n p =>
    rw [respContent_maxToolCalls]
    exact ntLast_closeAtOpt_lastIdx_append h _

/-- Any sequence of stream events preserves the invariant. -/
lemma ntLast_processEvents (evs : List (Nat × StreamEvent))
    (st : GeneratingMessageState) (h : ntLast st.message.content) :
    ntLast (processEvents evs st).message.content := by
  induction evs generalizing st with
  | nil => exact h
  | cons p rest ih =>
    have hstep : ntLast (handleLLMAgentResponse p.1 st p.2.toEventData).message.content := by
      rw [handleLLMAgentResponse_content]
      exact ntLast_respContent p.2 p.1 h
    exact ih _ hstep

lemma countNonTerminal_eq_zero {l : List Block} (h : allTerminal l) :
    countNonTerminal l = 0 := by
  unfold countNonTerminal
  rw [List.length_eq_zero]
  rw [List.filter_eq_nil]
  intro b hb
  simp [h b hb]

lemma countNonTerminal_cons_le_one {l : List Block} (h : allTerminal l) (b : Block) :
    countNonTerminal (b :: l) ≤ 1 := by
  unfold countNonTerminal
  rw [List.filter_cons]
  by_cases hb : b.status.isNonTerminal
  · simp only [hb, if_true]
    have := countNonTerminal_eq_zero h
    unfold countNonTerminal at this
    simp [this]
  · simp only [hb]
    have := countNonTerminal_eq_zero h
    unfold countNonTerminal at this
    simp [this]

/-- A concrete fresh generation state used by witnesses. -/
def sampleState : GeneratingMessageState :=
  { message := { id := "m1", content := [] }, conversationId := "c1",
    startTime := 0, firstTokenTime := none, promptTokens := 0,
    reasoningStartTime := none, reasoningEndTime := none,
    lastReasoningTime := none, isSearching := false, isCancelled := false,
    totalUsage := none }

/-- Claim C1: after the stream event processor handles any sequence of
    stream events, and after any flush of the search subflow, at most one
    content block of the message has a non-terminal status (loading,
    optimizing or reading); every other block is terminal. -/
theorem c1_status_invariant :
    (∀ (evs : List (Nat × StreamEvent)) (st : GeneratingMessageState),
      ntLast st.message.content →
      countNonTerminal (processEvents evs st).message.content ≤ 1) ∧
    (∀ (now : Nat) (cancelPoint : Option Nat) (searchFail : Option String)
      (results : List SearchResultPayload) (c : List Block),
      allTerminal c →
      ∀ b ∈ (startStreamSearch now cancelPoint searchFail results).blockTrace,
        countNonTerminal (b :: c) ≤ 1) := by
  constructor
  · intro evs st h
    exact countNonTerminal_le_one (ntLast_processEvents evs st h)
  · intro now cancelPoint searchFail results c hc b _
    exact countNonTerminal_cons_le_one hc b

/-- Witness for C1 at a concrete event sequence and a concrete
    subflow run. -/
theorem c1_status_invariant_witness :
    countNonTerminal
      (processEvents [(1, StreamEvent.contentDelta "a"),
        (2, StreamEvent.toolCallStart (some "T1") (some "f") none)]
        sampleState).message.content ≤ 1 ∧
    countNonTerminal (searchBlockOf 5 0 BlockStatus.loading :: []) ≤ 1 := by
  constructor
  · exact c1_status_invariant.1 _ sampleState ntLast_nil
  · exact c1_status_invariant.2 5 none none [] [] (by intro b hb; simp at hb)
      (searchBlockOf 5 0 BlockStatus.loading) (by decide)

/-! Cancellation: the processor never produces a cancel-status block,
    and stopMessageGeneration produces exactly one. -/

/-- No block of the list carries the cancel status. -/
def noCancel (l : List Block) : Prop :=
  ∀ b ∈ l, b.status ≠ BlockStatus.cancel

lemma noCancel_set {l : List Block} {x : Block} (h : noCancel l)
    (hx : x.status ≠ BlockStatus.cancel) (i : Nat) : noCancel (l.set i x) := by
  intro b hb
  rcases List.mem_or_eq_of_mem_set hb with hmem | heq
  · exact h b hmem
  · rw [heq]
    exact hx

lemma noCancel_append_singleton {l : List Block} {x : Block} (h : noCancel l)
    (hx : x.status ≠ BlockStatus.cancel) : noCancel (l ++ [x]) := by
  intro b hb
  rcases List.mem_append.mp hb with hmem | hmem
  · exact h b hmem
  · rw [List.mem_singleton.mp hmem]
    exact hx

lemma noCancel_cons {l : List Block} {x : Block} (h : noCancel l)
    (hx : x.status ≠ BlockStatus.cancel) : noCancel (x :: l) := by
  intro b hb
  rcases List.mem_cons.mp hb with heq | hmem
  · rw [heq]
    exact hx
  · exact h b hmem

lemma noCancel_modifyAt {l : List Block} (h : noCancel l) {f : Block → Block}
    (hf : ∀ b, (f b).status ≠ BlockStatus.cancel) (i : Nat) :
    noCancel (modifyAt l i f) := by
  unfold modifyAt
  cases hy : l[i]? with
  | none =>
    simp only [hy]
    exact h
  | some y =>
    simp only [hy]
    exact noCancel_set h (hf y) i

lemma noCancel_closeAtOpt {l : List Block} (h : noCancel l) (lp : Option Nat) :
    noCancel (closeAtOpt l lp) := by
  unfold closeAtOpt
  cases lp with
  | none => exact h
  | some i => exact noCancel_modifyAt h (fun b => by simp) i

lemma noCancel_deltaStep {l : List Block} (h : noCancel l) (k : BlockKind)
    (now : Nat) (s : String) (lp : Option Nat) :
    noCancel (deltaStep k now s lp l) := by
  unfold deltaStep
  cases lp with
  | none => exact noCancel_append_singleton h (by simp [mkBlock])
  | some i =>
    cases hy : l[i]? with
    | none =>
      simp only [hy]
      exact noCancel_append_singleton h (by simp [mkBlock])
    | some y =>
      simp only [hy]
      by_cases hk : y.kind == k
      · simp only [hk, if_true]
        refine noCancel_set h ?_ i
        exact h y (List.getElem?_mem hy)
      · simp only [hk, Bool.false_eq_true, if_false]
        refine noCancel_append_singleton (noCancel_set h ?_ i) (by simp [mkBlock])
        simp

lemma noCancel_applyEmbeddedSearch {l : List Block} (h : noCancel l)
    (now : Nat) (rs : List SearchResultPayload) :
    noCancel (applyEmbeddedSearch now rs l) := by
  unfold applyEmbeddedSearch
  by_cases hrs : rs.isEmpty
  · simpa [hrs]
  · simp only [hrs, if_false, Bool.false_eq_true]
    cases l with
    | nil =>
      intro b hb
      rw [List.mem_singleton.mp hb]
      simp [searchBlockOf]
    | cons a t =>
      by_cases hk : a.kind == BlockKind.search
      · simp only [hk, if_true]
        exact noCancel_cons (fun b hb => h b (List.mem_cons_of_mem a hb)) (by simp)
      · simp only [hk, Bool.false_eq_true, if_false]
        exact noCancel_cons h (by simp [searchBlockOf])

lemma noCancel_updateMatchingTool {l : List Block} (h : noCancel l)
    (phase : ToolPhase) (ev : AgentEventData) :
    noCancel (updateMatchingTool phase ev l) := by
  unfold updateMatchingTool
  cases hidx : findFirstIdx (toolMatch ev) l with
  | none =>
    simp only [hidx]
    exact h
  | some i =>
    simp only [hidx]
    refine noCancel_modifyAt h ?_ i
    intro b
    unfold applyToolResult
    cases phase <;> simp

lemma noCancel_respContent (e : StreamEvent) (now : Nat) {c : List Block}
    (h : noCancel c) : noCancel (respContent now e.toEventData c) := by
  cases e with
  | contentDelta s =>
    rw [respContent_contentDelta]
    by_cases hs : s = ""
    · simpa [hs] using h
    · simpa [hs] using noCancel_deltaStep h .content now s (lastIdx c)
  | reasoningDelta s =>
    rw [respContent_reasoningDelta]
    by_cases hs : s = ""
    · simpa [hs] using h
    · simpa [hs] using noCancel_deltaStep h .reasoning_content now s (lastIdx c)
  | toolCallStart i n p =>
    rw [respContent_toolCallStart]
    exact noCancel_append_singleton (noCancel_closeAtOpt h _) (by simp [toolStartBlock])
  | toolCallEnd i n r srs =>
    rw [respContent_toolCallEnd]
    exact noCancel_updateMatchingTool (noCancel_applyEmbeddedSearch h now srs) _ _
  | toolCallError i n r =>
    rw [respContent_toolCallError]
    exact noCancel_updateMatchingTool h _ _
  | imageData d =>
    rw [respContent_imageData]
    exact noCancel_append_singleton (noCancel_closeAtOpt h _) (by simp [imageBlock])
  | usageTotals u =>
    rw [respContent_usageTotals]
    exact h
  | maxToolCalls i n p =>
    rw [respContent_maxToolCalls]
    exact noCancel_append_singleton (noCancel_closeAtOpt h _) (by simp [maxActionBlock])

/-- The stream event processor never produces a cancel-status block. -/
lemma noCancel_processEvents (evs : List (Nat × StreamEvent))
    (st : GeneratingMessageState) (h : noCancel st.message.content) :
    noCancel (processEvents evs st).message.content := by
  induction evs generalizing st with
  | nil => exact h
  | cons p rest ih =>
    refine ih _ ?_
    rw [handleLLMAgentResponse_content]
    exact noCancel_respContent p.2 p.1 h

lemma closeNonTerminals_getElem? (l : List Block) (i : Nat) :
    (closeNonTerminals l)[i]? =
      Option.map
        (fun b => if b.status.isNonTerminal then { b with status := BlockStatus.success } else b)
        l[i]? := by
  unfold closeNonTerminals
  exact List.getElem?_map _ l i

/-- Claim C2: once stopMessageGeneration runs on an active generation,
    the persisted content contains exactly one cancel-status block (the
    error-kind user-cancelled marker), every block that was loading,
    reading or optimizing has been set to success, the backend stream is
    asked to stop, the generation is removed from the active set, and no
    subsequent stream event (response or end) mutates the message.  The
    hypothesis that no cancel block is already present holds for every
    processor-produced content, as the final conjunct shows. -/
theorem c2_cancellation_determinism (now : Nat) (s : MsgSlot)
    (st : GeneratingMessageState) (hact : s.active = some st)
    (hnc : noCancel st.message.content) :
    ((stopMessageGeneration now s).1.persistedContent.filter
        (fun b => b.status == BlockStatus.cancel)) = [cancelBlock now] ∧
    (cancelBlock now).kind = BlockKind.error ∧
    (cancelBlock now).content = userCancelMsg ∧
    (∀ (i : Nat) (b : Block), st.message.content[i]? = some b →
      b.status.isNonTerminal = true →
      (stopMessageGeneration now s).1.persistedContent[i]? =
        some { b with status := BlockStatus.success }) ∧
    (stopMessageGeneration now s).1.streamStopRequested = true ∧
    (stopMessageGeneration now s).1.active = none ∧
    (∀ now2 ev, slotHandleResponse now2 ev (stopMessageGeneration now s).1 =
      (stopMessageGeneration now s).1) ∧
    (∀ est now2 us, slotHandleEnd est now2 us (stopMessageGeneration now s).1 =
      (stopMessageGeneration now s).1) ∧
    (∀ (evs : List (Nat × StreamEvent)) (st0 : GeneratingMessageState),
      noCancel st0.message.content →
      noCancel (processEvents evs st0).message.content) := by
  have hstop : stopMessageGeneration now s =
      ({ active := none, persistedStatus := .error,
         persistedContent := closeNonTerminals st.message.content ++ [cancelBlock now],
         streamStopRequested := true },
       (if st.isSearching then [StopEffect.stopSearch] else []) ++
         [StopEffect.updateStatus .error,
          StopEffect.editMessage (closeNonTerminals st.message.content ++ [cancelBlock now]),
          StopEffect.stopStream, StopEffect.removeState]) := by
    unfold stopMessageGeneration
    rw [hact]
  refine ⟨?_, rfl, rfl, ?_, ?_, ?_, ?_, ?_, noCancel_processEvents⟩
  · rw [hstop]
    simp only [List.filter_append]
    have h1 : (closeNonTerminals st.message.content).filter
        (fun b => b.status == BlockStatus.cancel) = [] := by
      rw [List.filter_eq_nil_iff]
      intro b hb
      unfold closeNonTerminals at hb
      rw [List.mem_map] at hb
      obtain ⟨a, ha, rfl⟩ := hb
      by_cases hnt : a.status.isNonTerminal <;>
        simp [hnt, hnc a ha]
    rw [h1]
    simp [cancelBlock, mkBlock]
  · intro i b hib hnt
    rw [hstop]
    simp only []
    have hilen : i < st.message.content.length := by
      rcases List.getElem?_eq_some.mp hib with ⟨hlt, _⟩
      exact hlt
    rw [List.getElem?_append_left (by simpa [closeNonTerminals] using hilen)]
    rw [closeNonTerminals_getElem?, hib]
    simp [hnt]
  · rw [hstop]
  · rw [hstop]
  · intro now2 ev
    rw [hstop]
    rfl
  · intro est now2 us
    rw [hstop]
    rfl

/-- Witness for C2 at a concrete slot with one loading block. -/
theorem c2_cancellation_determinism_witness :
    (stopMessageGeneration 9
      { active := some
          { sampleState with message :=
              { id := "m1", content := [mkBlock .content "hi" .loading 1] } },
        persistedStatus := .pending,
        persistedContent := [mkBlock .content "hi" .loading 1],
        streamStopRequested := false }).1.persistedContent.filter
        (fun b => b.status == BlockStatus.cancel) = [cancelBlock 9] := by
  have h := c2_cancellation_determinism 9
    { active := some
        { sampleState with message :=
            { id := "m1", content := [mkBlock .content "hi" .loading 1] } },
      persistedStatus := .pending,
      persistedContent := [mkBlock .content "hi" .loading 1],
      streamStopRequested := false }
    { sampleState with message :=
        { id := "m1", content := [mkBlock .content "hi" .loading 1] } }
    rfl (by intro b hb; simp [mkBlock] at hb; rw [hb]; simp)
  exact h.1

/-- Claim C10: cancelling an active generation persists the assistant
    message with status error (not sent), and both the status update and
    the content flush occur before the generation is removed from the
    active set. -/
theorem c10_stop_persists_error (now : Nat) (s : MsgSlot)
    (st : GeneratingMessageState) (hact : s.active = some st) :
    (stopMessageGeneration now s).1.persistedStatus = MsgStatus.error ∧
    MsgStatus.error ≠ MsgStatus.sent ∧
    (∃ i j k : Nat,
      (stopMessageGeneration now s).2[i]? = some (StopEffect.updateStatus .error) ∧
      (stopMessageGeneration now s).2[j]? =
        some (StopEffect.editMessage (stopMessageGeneration now s).1.persistedContent) ∧
      (stopMessageGeneration now s).2[k]? = some StopEffect.removeState ∧
      i < k ∧ j < k) := by
  have hstop : stopMessageGeneration now s =
      ({ active := none, persistedStatus := .error,
         persistedContent := closeNonTerminals st.message.content ++ [cancelBlock now],
         streamStopRequested := true },
       (if st.isSearching then [StopEffect.stopSearch] else []) ++
         [StopEffect.updateStatus .error,
          StopEffect.editMessage (closeNonTerminals st.message.content ++ [cancelBlock now]),
          StopEffect.stopStream, StopEffect.removeState]) := by
    unfold stopMessageGeneration
    rw [hact]
  rw [hstop]
  refine ⟨rfl, by simp, ?_⟩
  cases hsearch : st.isSearching
  · exact ⟨0, 1, 3, by simp, by simp, by simp, by omega, by omega⟩
  · exact ⟨1, 2, 4, by simp, by simp, by simp, by omega, by omega⟩

/-- Witness for C10 at a concrete active slot. -/
theorem c10_stop_persists_error_witness :
    (stopMessageGeneration 4
      { active := some sampleState, persistedStatus := .pending,
        persistedContent := [], streamStopRequested := false }).1.persistedStatus =
      MsgStatus.error :=
  (c10_stop_persists_error 4
    { active := some sampleState, persistedStatus := .pending,
      persistedContent := [], streamStopRequested := false }
    sampleState rfl).1

/-! Characterization of the first-match lookup used for tool-call
    pairing. -/

lemma findFirstIdx_none_iff (p : Block → Bool) (l : List Block) :
    findFirstIdx p l = none ↔ ∀ b ∈ l, p b = false := by
  induction l with
  | nil => simp [findFirstIdx]
  | cons a t ih =>
    unfold findFirstIdx
    by_cases ha : p a
    · simp [ha]
    · simp only [ha, Bool.false_eq_true, if_false]
      constructor
      · intro h b hb
        rcases List.mem_cons.mp hb with heq | hmem
        · rw [heq]
          exact Bool.eq_false_iff.mpr ha
        · rcases hidx : findFirstIdx p t with _ | i
          · exact (ih.mp hidx) b hmem
          · rw [hidx] at h
            simp at h
      · intro h
        have : findFirstIdx p t = none :=
          ih.mpr (fun b hb => h b (List.mem_cons_of_mem a hb))
        simp [this]

lemma findFirstIdx_first {p : Block → Bool} {l : List Block} {j : Nat} {b : Block}
    (hj : l[j]? = some b) (hpb : p b = true)
    (hmin : ∀ (k : Nat) (b2 : Block), k < j → l[k]? = some b2 → p b2 = false) :
    findFirstIdx p l = some j := by
  induction l generalizing j with
  | nil => simp at hj
  | cons a t ih =>
    cases j with
    | zero =>
      simp at hj
      subst hj
      unfold findFirstIdx
      simp [hpb]
    | succ m =>
      have ha : p a = false := hmin 0 a (Nat.succ_pos m) (by simp)
      unfold findFirstIdx
      simp only [ha, Bool.false_eq_true, if_false]
      have ht : findFirstIdx p t = some m := by
        refine ih (by simpa using hj) ?_
        intro k b2 hk hkb
        exact hmin (k + 1) b2 (by omega) (by simpa using hkb)
      simp [ht]

lemma applyEmbeddedSearch_nil_results (now : Nat) (l : List Block) :
    applyEmbeddedSearch now [] l = l := by
  unfold applyEmbeddedSearch
  simp

/-- A loading tool_call block with the given id and name "f". -/
def tcBlock (idv : String) (now : Nat) : Block :=
  { kind := .tool_call, content := "", status := .loading, timestamp := now,
    toolCall := some { id := some idv, name := some "f", params := "",
                       response := none },
    extraTotal := none, extraNeedContinue := none,
    actionType := none, imageData := none }

/-- A generation state holding the given blocks. -/
def stateWith (c : List Block) : GeneratingMessageState :=
  { sampleState with message := { id := "m1", content := c } }

/-- Content of a message holding two loading tool_call blocks of the
    same name, ids T2 then T1, after a tool-call-end event with id T1. -/
def c3output : List Block :=
  (processEvents
    [(3, StreamEvent.toolCallEnd (some "T1") (some "f") (.str "ok") [])]
    (stateWith [tcBlock "T2" 1, tcBlock "T1" 2])).message.content

/-- Counterexample to claim C3 as stated: with two loading tool_call
    blocks of the same name (ids T2 then T1), a tool-call-end event with
    id T1 mutates the older block whose id is T2 — because the source
    takes the first (not most recent) block matching by id or by name —
    and leaves the loading block whose id is T1 untouched. -/
theorem c3_counterexample :
    c3output[0]? ≠ some (tcBlock "T2" 1) ∧
    c3output[1]? = some (tcBlock "T1" 2) ∧
    (tcBlock "T1" 2).toolCall =
      some { id := some "T1", name := some "f", params := "", response := none } ∧
    (tcBlock "T1" 2).status = BlockStatus.loading := by
  refine ⟨?_, by decide, by decide, by decide⟩
  decide

/-- Claim C3 (amended): a tool-call-end / tool-call-error event updates
    only the first (oldest) loading tool_call block matching by id (when
    the event carries a truthy id and the ids are equal) or by name —
    setting its status to success / error and attaching the serialized
    response — and leaves every other block untouched; when no block
    matches, the event is a silent no-op. -/
theorem c3_tool_call_pairing (now : Nat) (e : StreamEvent) (phase : ToolPhase)
    (i n : Option String) (r : RespVal)
    (he : e = StreamEvent.toolCallEnd i n r [] ∧ phase = ToolPhase.finish ∨
          e = StreamEvent.toolCallError i n r ∧ phase = ToolPhase.failed)
    (bs : List Block) :
    ((∀ b ∈ bs, toolMatch e.toEventData b = false) →
      respContent now e.toEventData bs = bs) ∧
    (∀ (j : Nat) (b : Block), bs[j]? = some b →
      toolMatch e.toEventData b = true →
      (∀ (k : Nat) (b2 : Block), k < j → bs[k]? = some b2 →
        toolMatch e.toEventData b2 = false) →
      respContent now e.toEventData bs =
        bs.set j (applyToolResult phase e.toEventData b) ∧
      (∀ k : Nat, k ≠ j →
        (respContent now e.toEventData bs)[k]? = bs[k]?) ∧
      (applyToolResult phase e.toEventData b).status =
        (if phase = ToolPhase.failed then BlockStatus.error
         else BlockStatus.success) ∧
      (applyToolResult phase e.toEventData b).toolCall =
        b.toolCall.map (fun tc =>
          { tc with response := respString phase r })) := by
  have hred : respContent now e.toEventData bs =
      updateMatchingTool phase e.toEventData bs := by
    rcases he with ⟨he1, he2⟩ | ⟨he1, he2⟩
    · subst he1
      subst he2
      rw [respContent_toolCallEnd, applyEmbeddedSearch_nil_results]
    · subst he1
      subst he2
      rw [respContent_toolCallError]
  have hresp : e.toEventData.tool_call_response = r := by
    rcases he with ⟨he1, _⟩ | ⟨he1, _⟩ <;> subst he1 <;> rfl
  constructor
  · intro hnone
    rw [hred]
    unfold updateMatchingTool
    rw [(findFirstIdx_none_iff _ _).mpr hnone]
  · intro j b hj hpb hmin
    have hidx : findFirstIdx (toolMatch e.toEventData) bs = some j :=
      findFirstIdx_first hj hpb hmin
    have hset : respContent now e.toEventData bs =
        bs.set j (applyToolResult phase e.toEventData b) := by
      rw [hred]
      unfold updateMatchingTool
      simp only [hidx]
      unfold modifyAt
      simp only [hj]
    refine ⟨hset, ?_, ?_, ?_⟩
    · intro k hk
      rw [hset]
      exact List.getElem?_set_ne (fun h => hk h.symm)
    · cases phase <;> rfl
    · rw [← hresp]
      cases phase <;> rfl

/-- Witness for C3 (amended) at a concrete matching block. -/
theorem c3_tool_call_pairing_witness :
    respContent 3 (StreamEvent.toolCallEnd (some "T1") (some "f")
        (.str "ok") []).toEventData [tcBlock "T1" 1] =
      [applyToolResult ToolPhase.finish (StreamEvent.toolCallEnd (some "T1")
        (some "f") (.str "ok") []).toEventData (tcBlock "T1" 1)] := by
  have h := (c3_tool_call_pairing 3
    (StreamEvent.toolCallEnd (some "T1") (some "f") (.str "ok") [])
    ToolPhase.finish (some "T1") (some "f") (.str "ok")
    (Or.inl ⟨rfl, rfl⟩) [tcBlock "T1" 1]).2 0 (tcBlock "T1" 1)
    (by decide) (by decide) (by intro k b2 hk; omega)
  exact h.1

/-! Delta-merge semantics. -/

lemma lastIdx_concat (pre : List Block) (last : Block) :
    lastIdx (pre ++ [last]) = some pre.length := by
  unfold lastIdx
  simp

lemma set_concat_last (pre : List Block) (last x : Block) :
    (pre ++ [last]).set pre.length x = pre ++ [x] := by
  rw [List.set_append_right pre.length x (Nat.le_refl _)]
  simp

lemma deltaStep_concat_same (k : BlockKind) (now : Nat) (s : String)
    (pre : List Block) (last : Block) (hk : last.kind = k) :
    deltaStep k now s (lastIdx (pre ++ [last])) (pre ++ [last]) =
      pre ++ [{ last with content := last.content ++ s }] := by
  rw [lastIdx_concat]
  unfold deltaStep
  simp only [List.getElem?_concat_length, hk, beq_self_eq_true, if_true]
  exact set_concat_last pre last _

lemma deltaStep_concat_other (k : BlockKind) (now : Nat) (s : String)
    (pre : List Block) (last : Block) (hk : last.kind ≠ k) :
    deltaStep k now s (lastIdx (pre ++ [last])) (pre ++ [last]) =
      (pre ++ [{ last with status := BlockStatus.success }]) ++
        [mkBlock k s .loading now] := by
  rw [lastIdx_concat]
  unfold deltaStep
  have hbeq : (last.kind == k) = false := by
    simp [hk]
  simp only [List.getElem?_concat_length, hbeq, Bool.false_eq_true, if_false]
  rw [set_concat_last pre last _]

/-- Claim C6: when the last block has the same kind as an incoming
    content-delta (resp. reasoning-delta), the delta text is appended in
    place to that block — in particular two consecutive content deltas
    "a" then "b" on a fresh message yield the single block "ab" — and
    when the last block has a different kind it is closed to success and
    a new loading block of the delta kind is appended. -/
theorem c6_block_merge (now : Nat) (s : String) (hs : s ≠ "")
    (pre : List Block) (last : Block) :
    (last.kind = BlockKind.content →
      respContent now (StreamEvent.contentDelta s).toEventData (pre ++ [last]) =
        pre ++ [{ last with content := last.content ++ s }]) ∧
    (last.kind ≠ BlockKind.content →
      respContent now (StreamEvent.contentDelta s).toEventData (pre ++ [last]) =
        (pre ++ [{ last with status := BlockStatus.success }]) ++
          [mkBlock .content s .loading now]) ∧
    (last.kind = BlockKind.reasoning_content →
      respContent now (StreamEvent.reasoningDelta s).toEventData (pre ++ [last]) =
        pre ++ [{ last with content := last.content ++ s }]) ∧
    (last.kind ≠ BlockKind.reasoning_content →
      respContent now (StreamEvent.reasoningDelta s).toEventData (pre ++ [last]) =
        (pre ++ [{ last with status := BlockStatus.success }]) ++
          [mkBlock .reasoning_content s .loading now]) ∧
    (processEvents [(1, StreamEvent.contentDelta "a"),
        (2, StreamEvent.contentDelta "b")] sampleState).message.content =
      [mkBlock .content "ab" .loading 1] := by
  refine ⟨?_, ?_, ?_, ?_, by decide⟩
  · intro hk
    rw [respContent_contentDelta]
    simp only [hs, if_false]
    exact deltaStep_concat_same _ now s pre last hk
  · intro hk
    rw [respContent_contentDelta]
    simp only [hs, if_false]
    exact deltaStep_concat_other _ now s pre last hk
  · intro hk
    rw [respContent_reasoningDelta]
    simp only [hs, if_false]
    exact deltaStep_concat_same _ now s pre last hk
  · intro hk
    rw [respContent_reasoningDelta]
    simp only [hs, if_false]
    exact deltaStep_concat_other _ now s pre last hk

/-- Witness for C6 at a concrete one-block message. -/
theorem c6_block_merge_witness :
    respContent 7 (StreamEvent.contentDelta "b").toEventData
        ([] ++ [mkBlock .content "a" .loading 1]) =
      [] ++ [{ mkBlock .content "a" .loading 1 with content := "a" ++ "b" }] :=
  (c6_block_merge 7 "b" (by decide) [] (mkBlock .content "a" .loading 1)).1 rfl

/-- Claim C7: on end-of-stream with no content, reasoning_content,
    tool_call or image block and no user stop, exactly one error-kind
    block carrying the no-model-response marker is appended and the
    message is still persisted with status sent. -/
theorem c7_empty_response (est : String → Nat) (now : Nat)
    (st : GeneratingMessageState)
    (hempty : hasContentBlock st.message.content = false)
    (hnoerr : ∀ b ∈ st.message.content, b.kind ≠ BlockKind.error) :
    (handleLLMAgentEnd est now false st).content =
      st.message.content.map (fun b => { b with status := BlockStatus.success }) ++
        [noModelResponseBlock now] ∧
    ((handleLLMAgentEnd est now false st).content.filter
      (fun b => b.kind == BlockKind.error &&
        b.content == "common.error.noModelResponse")).length = 1 ∧
    (handleLLMAgentEnd est now false st).status = MsgStatus.sent := by
  have hclosed : hasContentBlock
      (st.message.content.map (fun b => { b with status := BlockStatus.success })) = false := by
    unfold hasContentBlock at hempty ⊢
    rw [List.any_map]
    exact hempty
  have hcontent : (handleLLMAgentEnd est now false st).content =
      st.message.content.map (fun b => { b with status := BlockStatus.success }) ++
        [noModelResponseBlock now] := by
    unfold handleLLMAgentEnd
    simp only [hclosed]
    rfl
  refine ⟨hcontent, ?_, rfl⟩
  rw [hcontent]
  rw [List.filter_append]
  have h1 : (st.message.content.map
      (fun b => { b with status := BlockStatus.success })).filter
      (fun b => b.kind == BlockKind.error &&
        b.content == "common.error.noModelResponse") = [] := by
    rw [List.filter_eq_nil_iff]
    intro b hb
    rw [List.mem_map] at hb
    obtain ⟨a, ha, rfl⟩ := hb
    simp [hnoerr a ha]
  rw [h1]
  simp [noModelResponseBlock, mkBlock]

/-- Witness for C7 at a fresh empty message. -/
theorem c7_empty_response_witness :
    (handleLLMAgentEnd String.length 5 false sampleState).status = MsgStatus.sent :=
  (c7_empty_response String.length 5 sampleState (by decide)
    (by intro b hb; simp [sampleState] at hb)).2.2

/-! Usage precedence. -/

/-- The last usage-totals payload of an event sequence, if any. -/
def lastUsage : List (Nat × StreamEvent) → Option UsageTotals
  | [] => none
  | p :: rest =>
    match lastUsage rest with
    | some u => some u
    | none =>
      match p.2 with
      | .usageTotals u => some u
      | _ => none

lemma bkFirstToken_usage (now : Nat) (ev : AgentEventData)
    (st : GeneratingMessageState) :
    (bkFirstToken now ev st).totalUsage = st.totalUsage ∧
    (bkFirstToken now ev st).promptTokens = st.promptTokens := by
  unfold bkFirstToken
  split <;> exact ⟨rfl, rfl⟩

lemma bkReasoning_usage (now : Nat) (ev : AgentEventData)
    (st : GeneratingMessageState) :
    (bkReasoning now ev st).totalUsage = st.totalUsage ∧
    (bkReasoning now ev st).promptTokens = st.promptTokens := by
  unfold bkReasoning
  repeat' split
  all_goals exact ⟨rfl, rfl⟩

lemma handleLLMAgentResponse_usage (now : Nat) (st : GeneratingMessageState)
    (ev : AgentEventData) :
    (handleLLMAgentResponse now st ev).totalUsage =
      (match ev.totalUsage with
       | some u => some u
       | none => st.totalUsage) ∧
    (handleLLMAgentResponse now st ev).promptTokens =
      (match ev.totalUsage with
       | some u => u.prompt_tokens
       | none => st.promptTokens) := by
  unfold handleLLMAgentResponse respBookkeeping
  dsimp only []
  rw [(bkReasoning_usage _ _ _).1, (bkReasoning_usage _ _ _).2]
  unfold bkUsage
  cases hu : ev.totalUsage with
  | none =>
    simp only [hu]
    exact ⟨(bkFirstToken_usage _ _ _).1, (bkFirstToken_usage _ _ _).2⟩
  | some u => simp [hu]

lemma toEventData_totalUsage_none (e : StreamEvent)
    (h : ∀ u, e ≠ StreamEvent.usageTotals u) :
    e.toEventData.totalUsage = none := by
  cases e with
  | usageTotals u => exact absurd rfl (h u)
  | _ => rfl

lemma processEvents_usage (evs : List (Nat × StreamEvent))
    (st : GeneratingMessageState) :
    (processEvents evs st).totalUsage =
      (match lastUsage evs with
       | some u => some u
       | none => st.totalUsage) ∧
    (processEvents evs st).promptTokens =
      (match lastUsage evs with
       | some u => u.prompt_tokens
       | none => st.promptTokens) := by
  induction evs generalizing st with
  | nil => exact ⟨rfl, rfl⟩
  | cons p rest ih =>
    have hstep := handleLLMAgentResponse_usage p.1 st p.2.toEventData
    have hih := ih (handleLLMAgentResponse p.1 st p.2.toEventData)
    show (processEvents rest _).totalUsage = _ ∧ (processEvents rest _).promptTokens = _
    cases hl : lastUsage rest with
    | some u =>
      rw [hl] at hih
      constructor
      · rw [hih.1]
        unfold lastUsage
        rw [hl]
      · rw [hih.2]
        unfold lastUsage
        rw [hl]
    | none =>
      rw [hl] at hih
      cases he : p.2 with
      | usageTotals u =>
        have hev : p.2.toEventData.totalUsage = some u := by
          rw [he]
          rfl
        rw [hev] at hstep
        constructor
        · rw [hih.1, hstep.1]
          unfold lastUsage
          rw [hl, he]
        · rw [hih.2, hstep.2]
          unfold lastUsage
          rw [hl, he]
      | _ =>
        first
        | (rename_i a
           have hev : p.2.toEventData.totalUsage = none := by
             rw [he]
             rfl
           rw [hev] at hstep
           refine ⟨?_, ?_⟩
           · rw [hih.1, hstep.1]
             unfold lastUsage
             rw [hl, he]
           · rw [hih.2, hstep.2]
             unfold lastUsage
             rw [hl, he])
        | skip

/-- Claim C5: on normal end of stream, when a usage-totals event was
    received the persisted output-token count is the backend-reported
    completion_tokens (and the prompt-token count the backend-reported
    prompt_tokens), not the local estimate; otherwise the output-token
    count is the sum of approximate token sizes of the content,
    reasoning_content and tool_call blocks; in both cases the total
    equals prompt plus completion. -/
theorem c5_usage_precedence (est : String → Nat) (endNow : Nat)
    (userStop : Bool) (evs : List (Nat × StreamEvent))
    (st0 : GeneratingMessageState) (h0 : st0.totalUsage = none) :
    (∀ u, lastUsage evs = some u →
      (handleLLMAgentEnd est endNow userStop (processEvents evs st0)).metadata.outputTokens =
        u.completion_tokens ∧
      (handleLLMAgentEnd est endNow userStop (processEvents evs st0)).metadata.inputTokens =
        u.prompt_tokens) ∧
    (lastUsage evs = none →
      (handleLLMAgentEnd est endNow userStop (processEvents evs st0)).metadata.outputTokens =
        blockTokenSum est (processEvents evs st0).message.content) ∧
    (handleLLMAgentEnd est endNow userStop (processEvents evs st0)).metadata.totalTokens =
      (handleLLMAgentEnd est endNow userStop (processEvents evs st0)).metadata.inputTokens +
        (handleLLMAgentEnd est endNow userStop (processEvents evs st0)).metadata.outputTokens := by
  have husage := processEvents_usage evs st0
  refine ⟨?_, ?_, ?_⟩
  · intro u hu
    rw [hu] at husage
    unfold handleLLMAgentEnd
    dsimp only []
    rw [husage.1, husage.2]
    exact ⟨rfl, rfl⟩
  · intro hu
    rw [hu, h0] at husage
    unfold handleLLMAgentEnd
    dsimp only []
    rw [husage.1]
  · unfold handleLLMAgentEnd
    cases (processEvents evs st0).totalUsage <;> rfl

/-- Witness for C5 with one backend usage report of 3 prompt and 4
    completion tokens. -/
theorem c5_usage_precedence_witness :
    (handleLLMAgentEnd String.length 9 false
      (processEvents [(1, StreamEvent.usageTotals
        { prompt_tokens := 3, completion_tokens := 4, total_tokens := 7 })]
        sampleState)).metadata.outputTokens = 4 :=
  ((c5_usage_precedence String.length 9 false
    [(1, StreamEvent.usageTotals
      { prompt_tokens := 3, completion_tokens := 4, total_tokens := 7 })]
    sampleState rfl).1
    { prompt_tokens := 3, completion_tokens := 4, total_tokens := 7 } rfl).1

/-! Context-window budgeting. -/

/-- Total token estimate of a list of history messages. -/
def sumTokens (est : String → Nat) (l : List CtxMessage) : Nat :=
  (l.map (msgTokens est)).sum

lemma takeBudget_sum (est : String → Nat) (R : Int) (l : List CtxMessage)
    (cur : Int) (hcur : cur ≤ R) :
    cur + (sumTokens est (takeBudget est R l cur) : Int) ≤ R := by
  induction l generalizing cur with
  | nil =>
    unfold takeBudget sumTokens
    simpa using hcur
  | cons m rest ih =>
    unfold takeBudget
    by_cases hfit : cur + (msgTokens est m : Int) ≤ R
    · simp only [hfit, if_true]
      have := ih (cur + (msgTokens est m : Int)) hfit
      unfold sumTokens at this ⊢
      simp only [List.map_cons, List.sum_cons]
      push_cast at this ⊢
      omega
    · simp only [hfit, if_false]
      unfold sumTokens
      simpa using hcur

lemma takeBudget_prefix (est : String → Nat) (R : Int) (l : List CtxMessage)
    (cur : Int) : ∃ t, l = takeBudget est R l cur ++ t := by
  induction l generalizing cur with
  | nil => exact ⟨[], rfl⟩
  | cons m rest ih =>
    unfold takeBudget
    by_cases hfit : cur + (msgTokens est m : Int) ≤ R
    · simp only [hfit, if_true]
      obtain ⟨t, ht⟩ := ih (cur + (msgTokens est m : Int))
      exact ⟨t, by rw [List.cons_append, ← ht]⟩
    · simp only [hfit, if_false]
      exact ⟨m :: rest, rfl⟩

lemma takeBudget_maximal (est : String → Nat) (R : Int) (l : List CtxMessage)
    (cur : Int) :
    takeBudget est R l cur = l ∨
    ∃ next, l[(takeBudget est R l cur).length]? = some next ∧
      cur + (sumTokens est (takeBudget est R l cur) : Int) +
        (msgTokens est next : Int) > R := by
  induction l generalizing cur with
  | nil => exact Or.inl rfl
  | cons m rest ih =>
    unfold takeBudget
    by_cases hfit : cur + (msgTokens est m : Int) ≤ R
    · simp only [hfit, if_true]
      rcases ih (cur + (msgTokens est m : Int)) with heq | ⟨next, hnext, hsum⟩
      · exact Or.inl (by rw [heq])
      · refine Or.inr ⟨next, ?_, ?_⟩
        · simpa using hnext
        · unfold sumTokens at hsum ⊢
          simp only [List.map_cons, List.sum_cons]
          push_cast at hsum ⊢
          omega
    · simp only [hfit, if_false]
      refine Or.inr ⟨m, by simp, ?_⟩
      unfold sumTokens
      simp only [List.map_nil, List.sum_nil, List.length_nil]
      omega

lemma sumTokens_reverse (est : String → Nat) (l : List CtxMessage) :
    sumTokens est l.reverse = sumTokens est l := by
  unfold sumTokens
  rw [List.map_reverse, List.sum_reverse]

/-- Claim C4: history selection walks the history newest-to-oldest
    excluding the triggering message, keeps a message only while the
    running token sum stays within the remaining budget R, stops at the
    first message that does not fit, and returns the kept messages in
    chronological order (a suffix of the filtered history); consequently
    the selected token sum is at most R, and nothing is selected when R
    is zero or negative. -/
theorem c4_budget_respect (est : String → Nat) (ctx : List CtxMessage)
    (um : CtxMessage) (R : Int) :
    (R ≤ 0 → selectContextMessages est ctx um R = []) ∧
    (0 < R → (sumTokens est (selectContextMessages est ctx um R) : Int) ≤ R) ∧
    (∃ t, ctx.filter (fun m => !(m.id == um.id)) =
      t ++ selectContextMessages est ctx um R) ∧
    (0 < R →
      ((selectContextMessages est ctx um R).reverse =
        (ctx.filter (fun m => !(m.id == um.id))).reverse ∨
       ∃ next,
         (ctx.filter (fun m => !(m.id == um.id))).reverse[
           (selectContextMessages est ctx um R).length]? = some next ∧
         (sumTokens est (selectContextMessages est ctx um R) : Int) +
           (msgTokens est next : Int) > R)) := by
  by_cases hR : R ≤ 0
  · have hsel : selectContextMessages est ctx um R = [] := by
      unfold selectContextMessages
      simp [hR]
    refine ⟨fun _ => hsel, fun h0 => absurd h0 (by omega), ?_, fun h0 => absurd h0 (by omega)⟩
    rw [hsel]
    exact ⟨ctx.filter (fun m => !(m.id == um.id)), by simp⟩
  · have hR0 : ¬ R ≤ 0 := hR
    have hsel : selectContextMessages est ctx um R =
        (takeBudget est R ((ctx.filter (fun m => !(m.id == um.id))).reverse) 0).reverse := by
      unfold selectContextMessages
      simp [hR0]
    refine ⟨fun h => absurd h hR0, ?_, ?_, ?_⟩
    · intro _
      rw [hsel, sumTokens_reverse]
      have := takeBudget_sum est R
        ((ctx.filter (fun m => !(m.id == um.id))).reverse) 0 (by omega)
      omega
    · obtain ⟨t, ht⟩ := takeBudget_prefix est R
        ((ctx.filter (fun m => !(m.id == um.id))).reverse) 0
      refine ⟨t.reverse, ?_⟩
      rw [hsel]
      calc ctx.filter (fun m => !(m.id == um.id))
          = ((ctx.filter (fun m => !(m.id == um.id))).reverse).reverse := by
            rw [List.reverse_reverse]
        _ = (takeBudget est R ((ctx.filter (fun m => !(m.id == um.id))).reverse) 0 ++
              t).reverse := by rw [← ht]
        _ = t.reverse ++
              (takeBudget est R ((ctx.filter (fun m => !(m.id == um.id))).reverse) 0).reverse := by
            rw [List.reverse_append]
    · intro _
      rcases takeBudget_maximal est R
        ((ctx.filter (fun m => !(m.id == um.id))).reverse) 0 with heq | ⟨next, hnext, hsum⟩
      · refine Or.inl ?_
        rw [hsel, List.reverse_reverse, heq]
      · refine Or.inr ⟨next, ?_, ?_⟩
        · rw [hsel]
          simpa using hnext
        · rw [hsel, sumTokens_reverse]
          omega

/-- Witness for C4: remaining budget 24 — one history message of 15
    tokens fits, a second (30 total) does not (the truncation scenario
    of the spec, scaled down). -/
theorem c4_budget_respect_witness :
    (0 < (24 : Int) →
      (sumTokens (fun s => s.length)
        (selectContextMessages (fun s => s.length)
          [{ id := "h1", role := .user,
             text := String.mk (List.replicate 15 'x'), fileContext := "",
             serializedBlocks := "" },
           { id := "h2", role := .user,
             text := String.mk (List.replicate 15 'y'), fileContext := "",
             serializedBlocks := "" }]
          { id := "u1", role := .user, text := "q", fileContext := "",
            serializedBlocks := "" } 24) : Int) ≤ 24) ∧
    sumTokens (fun s => s.length)
      (selectContextMessages (fun s => s.length)
        [{ id := "h1", role := .user,
           text := String.mk (List.replicate 15 'x'), fileContext := "",
           serializedBlocks := "" },
         { id := "h2", role := .user,
           text := String.mk (List.replicate 15 'y'), fileContext := "",
           serializedBlocks := "" }]
        { id := "u1", role := .user, text := "q", fileContext := "",
          serializedBlocks := "" } 24) = 15 := by
  constructor
  · exact (c4_budget_respect (fun s => s.length) _ _ 24).2.1
  · decide

/-! Search subflow. -/

lemma cancelledAt_none (k : Nat) : cancelledAt none k = false := rfl

/-- Counterexample to claim C8 as stated: a cancellation observed at the
    very first check — before the search block is inserted — makes
    startStreamSearch raise the user-cancel error, with no search block
    ending in status error. -/
theorem c8_counterexample :
    (startStreamSearch 5 (some 0) none []).raised = some userCancelMsg ∧
    (startStreamSearch 5 (some 0) none []).blockTrace = [] := by
  decide

/-- Claim C8 (amended): on an uncancelled, unfailed run the search block
    passes through exactly loading(total 0), optimizing, reading,
    loading(total N), success; any failure or cancellation observed
    after the block is inserted ends the block in status error without
    raising; a cancellation observed at the initial check (before the
    block is inserted) raises instead. -/
theorem c8_search_subflow (now : Nat) (results : List SearchResultPayload)
    (cp : Option Nat) (sf : Option String) :
    ((startStreamSearch now none none results).blockTrace.map
        (fun b => (b.status, b.extraTotal)) =
      [(BlockStatus.loading, some 0), (BlockStatus.optimizing, some 0),
       (BlockStatus.reading, some 0),
       (BlockStatus.loading, some results.length),
       (BlockStatus.success, some results.length)]) ∧
    (startStreamSearch now none none results).raised = none ∧
    (startStreamSearch now none none results).returned = some results ∧
    (cancelledAt cp 0 = false →
      (startStreamSearch now cp sf results).raised = none ∧
      ((startStreamSearch now cp sf results).returned = some results ∧
        (startStreamSearch now cp sf results).blockTrace.map Block.status =
          [BlockStatus.loading, BlockStatus.optimizing, BlockStatus.reading,
           BlockStatus.loading, BlockStatus.success] ∨
       (startStreamSearch now cp sf results).returned = some [] ∧
        ((startStreamSearch now cp sf results).blockTrace.getLast?).map
          Block.status = some BlockStatus.error)) ∧
    (cancelledAt cp 0 = true →
      (startStreamSearch now cp sf results).raised = some userCancelMsg ∧
      (startStreamSearch now cp sf results).blockTrace = []) := by
  have hany0 : ∀ m : Nat,
      ((List.range m).any (fun k => cancelledAt none (5 + k))) = false := by
    intro m
    simp [cancelledAt]
  have hany1 : ∀ m : Nat, ((List.range m).any (fun _ => false)) = false := by
    intro m
    simp
  refine ⟨?_, ?_, ?_, ?_, ?_⟩
  · unfold startStreamSearch
    simp only [cancelledAt_none, hany0, hany1, Bool.false_eq_true, if_false,
      Bool.or_self]
    simp [searchBlockOf]
  · unfold startStreamSearch
    simp only [cancelledAt_none, hany0, hany1, Bool.false_eq_true, if_false,
      Bool.or_self]
  · unfold startStreamSearch
    simp only [cancelledAt_none, hany0, hany1, Bool.false_eq_true, if_false,
      Bool.or_self]
  · intro h0
    unfold startStreamSearch
    simp only [h0, Bool.false_eq_true, if_false]
    by_cases h12 : cancelledAt cp 1 || cancelledAt cp 2
    · simp only [h12, if_true]
      refine ⟨?_, Or.inr ⟨?_, ?_⟩⟩ <;> trivial
    · simp only [h12, Bool.false_eq_true, if_false]
      by_cases h3 : cancelledAt cp 3
      · simp only [h3, if_true]
        refine ⟨?_, Or.inr ⟨?_, ?_⟩⟩ <;> trivial
      · simp only [h3, Bool.false_eq_true, if_false]
        cases hsf : sf with
        | some e => refine ⟨?_, Or.inr ⟨?_, ?_⟩⟩ <;> trivial
        | none =>
          by_cases h4 : cancelledAt cp 4
          · simp only [h4, if_true]
            refine ⟨?_, Or.inr ⟨?_, ?_⟩⟩ <;> trivial
          · simp only [h4, Bool.false_eq_true, if_false]
            by_cases hany : (List.range (results.length + 1)).any
                (fun k => cancelledAt cp (5 + k))
            · simp only [hany, if_true]
              refine ⟨?_, Or.inr ⟨?_, ?_⟩⟩ <;> trivial
            · simp only [hany, Bool.false_eq_true, if_false]
              refine ⟨?_, Or.inl ⟨?_, ?_⟩⟩ <;>
                first
                | trivial
                | simp [searchBlockOf]
  · intro h0
    unfold startStreamSearch
    simp only [h0, if_true]
    exact ⟨trivial, trivial⟩

/-- Witness for C8 at a concrete two-result run. -/
theorem c8_search_subflow_witness :
    (startStreamSearch 3 none none
      [{ title := "t", url := "u", body := "b", icon := "i" }]).returned =
      some [{ title := "t", url := "u", body := "b", icon := "i" }] :=
  (c8_search_subflow 3
    [{ title := "t", url := "u", body := "b", icon := "i" }] none none).2.2.1

/-! Startup recovery. -/

/-- Counterexample to claim C9 as stated: a user message left in pending
    status is not converted at startup — the recovery only treats
    assistant messages. -/
theorem c9_counterexample :
    initializeUnfinishedMessages 7
      [[{ id := "u1", role := .user, status := .pending, blocks := some [] }]] =
      [[{ id := "u1", role := .user, status := .pending, blocks := some [] }]] ∧
    ({ id := "u1", role := MsgRole.user, status := .pending,
       blocks := some [] } : StoredMessage).status = MsgStatus.pending := by
  decide

/-- Claim C9 (amended): at startup recovery, every assistant message in
    pending status among the first 1000 messages of each of the first
    1000 conversations is converted to status error, with a
    session-interrupted error-kind block appended to its content. -/
theorem c9_startup_recovery (now : Nat) (store : List (List StoredMessage))
    (ci mi : Nat) (msgs : List StoredMessage) (m : StoredMessage)
    (hci : ci < 1000) (hmi : mi < 1000)
    (hconv : store[ci]? = some msgs) (hmsg : msgs[mi]? = some m)
    (hrole : m.role = .assistant) (hstatus : m.status = .pending) :
    ∃ msgs', (initializeUnfinishedMessages now store)[ci]? = some msgs' ∧
      msgs'[mi]? =
        some (handleMessageError now "common.error.sessionInterrupted" m) ∧
      (handleMessageError now "common.error.sessionInterrupted" m).status =
        MsgStatus.error ∧
      (∃ rest, (handleMessageError now "common.error.sessionInterrupted" m).blocks =
        some (rest ++ [mkBlock .error "common.error.sessionInterrupted" .error now])) := by
  unfold initializeUnfinishedMessages
  rw [List.getElem?_mapIdx, hconv]
  simp only [Option.map_some', hci, if_true]
  refine ⟨_, rfl, ?_, ?_, ?_⟩
  · rw [List.getElem?_mapIdx, hmsg]
    simp only [Option.map_some']
    have hcond : (mi < 1000 && m.role == MsgRole.assistant &&
        m.status == MsgStatus.pending) = true := by
      simp [hmi, hrole, hstatus]
    rw [if_pos hcond]
  · unfold handleMessageError
    rfl
  · refine ⟨(m.blocks.getD []).map
      (fun b => if b.status == BlockStatus.loading
        then { b with status := BlockStatus.error } else b), ?_⟩
    unfold handleMessageError
    rfl

/-- Witness for C9 at a one-conversation store holding a pending
    assistant message. -/
theorem c9_startup_recovery_witness :
    ∃ msgs', (initializeUnfinishedMessages 7
        [[{ id := "a1", role := .assistant, status := .pending,
            blocks := some [] }]])[0]? = some msgs' ∧
      msgs'[0]? = some (handleMessageError 7 "common.error.sessionInterrupted"
        { id := "a1", role := .assistant, status := .pending,
          blocks := some [] }) ∧
      (handleMessageError 7 "common.error.sessionInterrupted"
        { id := "a1", role := .assistant, status := .pending,
          blocks := some [] }).status = MsgStatus.error ∧
      (∃ rest, (handleMessageError 7 "common.error.sessionInterrupted"
        { id := "a1", role := .assistant, status := .pending,
          blocks := some [] }).blocks =
        some (rest ++ [mkBlock .error "common.error.sessionInterrupted"
          .error 7])) :=
  c9_startup_recovery 7
    [[{ id := "a1", role := .assistant, status := .pending, blocks := some [] }]]
    0 0 [{ id := "a1", role := .assistant, status := .pending, blocks := some [] }]
    { id := "a1", role := .assistant, status := .pending, blocks := some [] }
    (by decide) (by decide) rfl rfl rfl rfl

end DeepChat
